import Mathlib

/-!
Verification of the similarity-ranking and clustering engine of the
scientific-semantic-search repository.

The search-side code (`src/ai/semantic_search/similarity_calculator.py`,
`src/ai/semantic_search/search_engine.py`) computes with numpy float arrays;
it is embedded here over `ℝ`, with `Real.sqrt` standing for the square root used by
`np.linalg.norm`.  The clustering code (`src/ai/clustering/topic_clustering.py`)
is embedded over `ℚ`; the external sklearn estimators (`KMeans.fit_predict`,
`PCA.fit_transform`, `silhouette_score`) are out-of-repository collaborators
and enter the model as explicit function parameters, while the numpy global
random generator (used unseeded by `np.random.choice`) is modelled as an
explicit stream of draws threaded through the computation.
-/

namespace SemanticSearch

/-! ### Generic list helpers -/

/-- Propositional "every element satisfies `P`", by recursion on the list. -/
def ListAll (P : α → Prop) : List α → Prop
  | [] => True
  | a :: l => P a ∧ ListAll P l

/-- Index–value pairs starting at index `n`; models the numpy implicit row
indexing (`np.argsort` / `np.where` operate on positions). -/
def enumFromN : Nat → List α → List (Nat × α)
  | _, [] => []
  | n, a :: l => (n, a) :: enumFromN (n + 1) l

/-- "Greater or equal on the key `f`": the descending-order relation used to
model the Python `sort(key=..., reverse=True)` and the numpy descending argsort. -/
def keyGE (f : α → β) [LinearOrder β] (a b : α) : Prop := f b ≤ f a

instance (f : α → β) [LinearOrder β] : DecidableRel (keyGE f) :=
  fun a b => inferInstanceAs (Decidable (f b ≤ f a))

instance (f : α → β) [LinearOrder β] : IsTotal α (keyGE f) :=
  ⟨fun a b => le_total (f b) (f a)⟩

instance (f : α → β) [LinearOrder β] : IsTrans α (keyGE f) :=
  ⟨fun _ _ _ h1 h2 => le_trans h2 h1⟩

/-! ### SimilarityCalculator (`similarity_calculator.py`)

`np.dot` on two equal-length vectors, `np.linalg.norm` as the square root of
the sum of squares. -/

/-- Models `np.dot(a, b)` for one-dimensional arrays. -/
noncomputable def dot (a b : List ℝ) : ℝ := (List.zipWith (· * ·) a b).sum

/-- Models `np.linalg.norm(v)` for a one-dimensional array. -/
noncomputable def norm (v : List ℝ) : ℝ := Real.sqrt (dot v v)

/-- Models `SimilarityCalculator.calculate_cosine_similarity`: returns `0.0` when
either norm is zero, otherwise `max(-1.0, min(1.0, dot / (norm1 * norm2)))`. -/
noncomputable def calculate_cosine_similarity (vec1 vec2 : List ℝ) : ℝ :=
  if norm vec1 = 0 ∨ norm vec2 = 0 then 0
  else max (-1) (min 1 (dot vec1 vec2 / (norm vec1 * norm vec2)))

/-- Models `SimilarityCalculator.calculate_batch_similarity`: zero scores when the
query norm is zero or no document row has positive norm; otherwise each row
with positive norm gets `dot(row, query) / (row_norm * query_norm)`, rows
with zero norm keep score `0`, and the whole vector is passed through
`np.clip(·, -1.0, 1.0)` (that is, `min 1 (max (-1) ·)`). -/
noncomputable def calculate_batch_similarity (query_embedding : List ℝ)
    (doc_embeddings : List (List ℝ)) : List ℝ :=
  if norm query_embedding = 0 ∨ ¬ ∃ d ∈ doc_embeddings, 0 < norm d then
    List.replicate doc_embeddings.length 0
  else
    (doc_embeddings.map (fun d =>
      if 0 < norm d then dot d query_embedding / (norm d * norm query_embedding)
      else 0)).map (fun s => min 1 (max (-1) s))

/-- Models `SimilarityCalculator.find_top_k_similar`: computes all batch similarities
and returns `(indices, scores)`.  When `N ≤ k` this is a full descending
argsort; when `N > k`, `np.argpartition` selects the `k` highest-scoring rows
and only those are sorted descending — extensionally, the first `k` entries of
the descending ordering.  (The tie order of the numpy argsort is immaterial to
the properties proved here; the spec leaves tie-breaking unspecified.) -/
noncomputable def find_top_k_similar (query_embedding : List ℝ)
    (doc_embeddings : List (List ℝ)) (k : Nat) : List Nat × List ℝ :=
  let similarities := calculate_batch_similarity query_embedding doc_embeddings
  let order := List.insertionSort (keyGE Prod.snd) (enumFromN 0 similarities)
  if similarities.length ≤ k then (order.map Prod.fst, order.map Prod.snd)
  else ((order.take k).map Prod.fst, (order.take k).map Prod.snd)

/-- Models `SimilarityCalculator.convert_to_percentage`:
`min(100.0, max(0.0, (score + 1) / 2 * 100))`. -/
noncomputable def convert_to_percentage (cosine_score : ℝ) : ℝ :=
  min 100 (max 0 ((cosine_score + 1) / 2 * 100))

/-- Clamp as worded by the spec (§4.1): "Result is clamped to `[-1.0, 1.0]`". -/
noncomputable def clampSpec (lo hi x : ℝ) : ℝ := min hi (max lo x)

/-- Models `cosineSimilarity` exactly as §4.1 of the spec words it: `dot/(‖a‖·‖b‖)`,
`0.0` if either norm is zero, clamped to `[-1.0, 1.0]`. -/
noncomputable def cosineSimilaritySpec (a b : List ℝ) : ℝ :=
  if norm a = 0 ∨ norm b = 0 then 0
  else clampSpec (-1) 1 (dot a b / (norm a * norm b))

/-! ### SemanticSearchEngine (`search_engine.py`)

The engine holds `self.embeddings` (an `N × D` float matrix) and
`self.metadata` (a JSON list, possibly shorter than `N`); both are passed
explicitly here.  Query encoding (`self.model.encode`, Sentence-BERT) is an
external collaborator: `search` is modelled as receiving the already-encoded
query vector next to the query text. -/

/-- One metadata record: a JSON object whose recognized fields may be
absent (`meta.get` with defaults applied at result-creation time). -/
structure MetaRecord where
  id : Option String
  title : Option String
  authors : Option String
  categories : Option String
  date : Option String

instance : Inhabited MetaRecord := ⟨⟨none, none, none, none, none⟩⟩

/-- The metadata fields merged into a result dict by `_create_result`,
with the defaults of the source (a generated id of the form doc_idx, empty strings). -/
structure EnrichedMeta where
  id : String
  title : String
  authors : String
  categories : String
  date : String

/-- A successful search-result dict as built by `_create_result`. -/
structure SearchHit where
  query : String
  document_index : Nat
  similarity_score : ℝ
  similarity_percentage : ℝ
  match_quality : String
  enriched : Option EnrichedMeta

/-- The three record shapes `search` can put in its returned list: a result
dict, the no-qualifying-result sentinel dict (query, message,
best_score), and the exception-path dict (query, error). -/
inductive SearchRecord where
  | hit (h : SearchHit)
  | sentinel (query message : String) (best_score : ℝ)
  | failure (query message : String)

/-- Models `SemanticSearchEngine._get_match_quality`. -/
noncomputable def get_match_quality (score : ℝ) : String :=
  if 0.8 ≤ score then "Excellente correspondance"
  else if 0.6 ≤ score then "Bonne correspondance"
  else if 0.4 ≤ score then "Correspondance modérée"
  else if 0.2 ≤ score then "Faible correspondance"
  else "Très faible correspondance"

/-- Models `SemanticSearchEngine._create_result`: assembles the result dict; the
metadata fields are merged only when `self.metadata and idx <
len(self.metadata)` (equivalently, when row `idx` of the metadata list
exists).  The except branch of the source is unreachable for well-typed data,
so the model is total. -/
noncomputable def create_result (metadata : List MetaRecord) (query : String)
    (idx : Nat) (score : ℝ) : SearchHit :=
  { query := query
    document_index := idx
    similarity_score := score
    similarity_percentage := convert_to_percentage score
    match_quality := get_match_quality score
    enriched := (metadata[idx]?).map (fun meta =>
      { id := meta.id.getD ("doc_" ++ toString idx)
        title := meta.title.getD ""
        authors := meta.authors.getD ""
        categories := meta.categories.getD ""
        date := meta.date.getD "" }) }

/-- The threshold-filter loop shared verbatim by `search` (step 3) and
`search_by_embedding`: keep `(idx, score)` pairs with `score >= threshold`
and build a result for each. -/
noncomputable def filter_results (metadata : List MetaRecord) (query : String)
    (threshold : ℝ) (pairs : List (Nat × ℝ)) : List SearchHit :=
  pairs.filterMap (fun p =>
    if threshold ≤ p.2 then some (create_result metadata query p.1 p.2)
    else none)

/-- Models `SemanticSearchEngine.search`: top-k selection, threshold filter,
descending sort, and the no-result handling.  When no result survives the
filter, the source first logs `f"... {scores[0]:.3f}"`; on an empty corpus
`scores` is empty, this raises `IndexError`, and the enclosing
`except Exception` returns the query/error dict instead of
the sentinel (whose own `best_score` expression does guard
`len(scores) > 0`).  The sentinel message interpolates the threshold in
the source; the model keeps the constant part of the text. -/
noncomputable def search (query : String) (query_embedding : List ℝ)
    (embeddings : List (List ℝ)) (metadata : List MetaRecord)
    (k : Nat) (threshold : ℝ) : List SearchRecord :=
  let top := find_top_k_similar query_embedding embeddings k
  let results := filter_results metadata query threshold (top.1.zip top.2)
  let sorted := List.insertionSort (keyGE SearchHit.similarity_score) results
  if sorted.isEmpty then
    match top.2 with
    | [] =>
      [SearchRecord.failure query
        "index 0 is out of bounds for axis 0 with size 0"]
    | s :: _ =>
      [SearchRecord.sentinel query "Aucun résultat pertinent trouvé" s]
  else sorted.map SearchRecord.hit

/-- Models `SemanticSearchEngine.search_by_embedding`: same select-then-filter
pipeline with the fixed query text `"Embedding query"`, but no sentinel —
when nothing passes the threshold the plain empty list comes back. -/
noncomputable def search_by_embedding (query_embedding : List ℝ)
    (embeddings : List (List ℝ)) (metadata : List MetaRecord)
    (k : Nat) (threshold : ℝ) : List SearchRecord :=
  let top := find_top_k_similar query_embedding embeddings k
  (filter_results metadata "Embedding query" threshold
    (top.1.zip top.2)).map SearchRecord.hit

/-- The embedding-derived stub dict with the index and the row shape of
`self.embeddings[idx]` (the shape of one row is its dimension). -/
structure DocStub where
  index : Int
  embedding_shape : Nat

/-- What `get_document_by_index` can return: a metadata record or the stub. -/
inductive Document where
  | fromMeta (m : MetaRecord)
  | stub (s : DocStub)

/-- Models `SemanticSearchEngine.get_document_by_index`: `None` out of range
(`idx < 0 or idx >= len(self.embeddings)`), the metadata record when
`self.metadata` is non-empty (Python truthiness) and `idx <
len(self.metadata)`, otherwise the embedding stub. -/
def get_document_by_index (embeddings : List (List ℝ))
    (metadata : List MetaRecord) (idx : Int) : Option Document :=
  if idx < 0 ∨ (embeddings.length : Int) ≤ idx then none
  else if 0 < metadata.length ∧ idx < (metadata.length : Int) then
    some (Document.fromMeta (metadata.getD idx.toNat default))
  else some (Document.stub ⟨idx, (embeddings.getD idx.toNat []).length⟩)

/-- Predicate: the record satisfies the threshold when it is a result dict;
sentinel and error dicts carry no similarity score. -/
def recScoreOK (threshold : ℝ) : SearchRecord → Prop
  | SearchRecord.hit h => threshold ≤ h.similarity_score
  | _ => True

/-- The similarity score of a result dict, if any. -/
def recScore : SearchRecord → Option ℝ
  | SearchRecord.hit h => some h.similarity_score
  | _ => none

/-- Whether a returned record is a result dict (not sentinel, not error). -/
def isHit : SearchRecord → Bool
  | SearchRecord.hit _ => true
  | _ => false

/-! ### TopicClustering (`topic_clustering.py`)

Embeddings are modelled over `ℚ` on this side.  The sklearn estimators are
external collaborators and appear as function parameters: `fit` stands for
`KMeans(n_clusters, random_state=42, n_init=10, max_iter=300).fit_predict`
(a deterministic function of its inputs, the seed being fixed) and `pca`
for `PCA(n_components=50, random_state=42).fit_transform` (likewise
deterministic).  `np.random.choice` in `find_optimal_clusters` is called
WITHOUT seeding: it consumes the numpy ambient global generator, modelled
here as an explicit stream of raw draws (`List Nat`) threaded in and out. -/

/-- One unseeded draw without replacement from `pool`, driven by the head of
the ambient random stream; returns the chosen elements and the advanced
stream.  Models the dependence of `np.random.choice(n, size, replace=False)` on
the global generator state: different states may select different indices. -/
def npChoice : List Nat → Nat → List Nat → List Nat × List Nat
  | _, 0, rng => ([], rng)
  | pool, size + 1, rng =>
    if pool.isEmpty then ([], rng)
    else
      let j := rng.headD 0 % pool.length
      let rest := npChoice (pool.eraseIdx j) size rng.tail
      (pool.getD j 0 :: rest.1, rest.2)

/-- The sample drawn by `find_optimal_clusters`:
`np.random.choice(len(self.embeddings), min(1000, len(self.embeddings)),
replace=False)` against the ambient generator state. -/
def sampleIndices (n : Nat) (rng : List Nat) : List Nat × List Nat :=
  npChoice (List.range n) (min 1000 n) rng

/-- Models the sweep range, `range(2, max_clusters + 1)`. -/
def kList (max_clusters : Nat) : List Nat := List.range' 2 (max_clusters - 1)

/-- Models `TopicClustering.find_optimal_clusters`: draw the (unseeded) sample,
then for each `n_clusters` in `[2, max_clusters]` run k-means on the sample
and record the silhouette score whenever more than one distinct label
occurs (`len(np.unique(labels)) > 1`); other `k` are skipped.  Returns the
`{n_clusters: score}` map and the advanced generator state. -/
def find_optimal_clusters (fit : List (List ℚ) → Nat → List Nat)
    (sil : List (List ℚ) → List Nat → ℚ) (embeddings : List (List ℚ))
    (max_clusters : Nat) (rng : List Nat) : List (Nat × ℚ) × List Nat :=
  let pick := sampleIndices embeddings.length rng
  let sample := pick.1.map (fun i => embeddings.getD i [])
  ((kList max_clusters).filterMap (fun n_clusters =>
    let labels := fit sample n_clusters
    if 1 < labels.dedup.length then some (n_clusters, sil sample labels)
    else none), pick.2)

/-- Models `TopicClustering.perform_clustering`: PCA-reduce to 50 dimensions when
the embedding dimension exceeds 50, then k-means with the fixed seed; one
label per document. -/
def perform_clustering (fit : List (List ℚ) → Nat → List Nat)
    (pca : List (List ℚ) → List (List ℚ)) (embeddings : List (List ℚ))
    (n_clusters : Nat) : List Nat :=
  fit (if 50 < (embeddings.headD []).length then pca embeddings
       else embeddings) n_clusters

/-- The duck-typed `categories` field: a whitespace-delimited string or a
list of strings (`isinstance` branches in `analyze_clusters`). -/
inductive CatField where
  | str (s : String)
  | list (l : List String)

/-- Metadata as consumed by `analyze_clusters`: only the `categories` and
`title` fields are read, each guarded by an `in meta` membership test. -/
structure ClusterMeta where
  categories : Option CatField
  title : Option String

/-- Category tokens of one record: the categories field split on whitespace for a
string (whitespace split, empties dropped), the elements themselves for a
list. -/
def catTokens : CatField → List String
  | CatField.str s => (s.split (· = ' ')).filter (fun t => t ≠ "")
  | CatField.list l => l

/-- A regex word character (`\w`): letters, digits, underscore. -/
def isWordChar (c : Char) : Bool := c.isAlphanum || c = '_'

/-- Maximal word-character runs of a character list. -/
def wordRuns : List Char → List (List Char)
  | [] => []
  | c :: cs =>
    if isWordChar c then
      (c :: cs.takeWhile isWordChar) :: wordRuns (cs.dropWhile isWordChar)
    else
      wordRuns cs
termination_by l => l.length
decreasing_by
  · simp only [List.length_cons]
    exact Nat.lt_succ_of_le (List.dropWhile_sublist isWordChar).length_le
  · simp only [List.length_cons]
    exact Nat.lt_succ_self _

/-- Models the regex findall over the lowercased title — alphabetic
substrings of length at least 3 delimited by word boundaries: exactly the
maximal word runs that consist solely of letters and have length at least 3
(a run containing a digit or underscore has no interior word boundary, so
the regex matches nothing inside it). -/
def titleWords (title : String) : List String :=
  (wordRuns title.toLower.toList).filterMap (fun run =>
    if 3 ≤ run.length ∧ run.all Char.isAlpha then some (String.mk run)
    else none)

/-- The stopword set filtered out of title keywords. -/
def common_words : List String :=
  ["the", "and", "for", "with", "using", "based", "from", "this", "that"]

/-- Distinct elements in first-encounter order (the key order of a Python
`Counter` built by insertion). -/
def firstOccurrences [DecidableEq α] (l : List α) : List α :=
  l.foldl (fun acc a => if a ∈ acc then acc else acc ++ [a]) []

/-- Models `Counter(l).most_common(n)`: (element, count) pairs sorted by count
descending — stably, so equal counts stay in first-encounter order — and
truncated to `n`. -/
def mostCommon (n : Nat) (l : List String) : List (String × Nat) :=
  (List.insertionSort (keyGE Prod.snd)
    ((firstOccurrences l).map (fun a => (a, l.count a)))).take n

/-- One entry of the cluster analysis (`cluster_stats` dict). -/
structure ClusterStats where
  cluster_id : Nat
  size : Nat
  percentage : ℚ
  top_categories : List (String × Nat)
  top_keywords : List (String × Nat)
  sample_titles : List String

/-- Models `np.where(cluster_labels == cluster_id)[0]`: the positions holding the
given label, in ascending order. -/
def clusterIndices (labels : List Nat) (cluster_id : Nat) : List Nat :=
  ((enumFromN 0 labels).filter (fun p => p.2 == cluster_id)).map Prod.fst

/-- The per-cluster body of `analyze_clusters`: `None` (skip, `continue`)
when the cluster has no members, otherwise the stats dict built from the
metadata of up to 100 member documents. -/
def analyze_one (metadata : List ClusterMeta) (labels : List Nat)
    (cluster_id : Nat) : Option ClusterStats :=
  let cluster_indices := clusterIndices labels cluster_id
  if cluster_indices.isEmpty then none
  else
    let metas := (cluster_indices.take 100).filterMap
      (fun i => metadata[i]?)
    let categories :=
      ((metas.filterMap ClusterMeta.categories).map catTokens).flatten
    let titles := metas.filterMap ClusterMeta.title
    let filtered_words := ((titles.map titleWords).flatten).filter
      (fun w => ¬ common_words.contains w)
    some
      { cluster_id := cluster_id
        size := cluster_indices.length
        percentage := (cluster_indices.length : ℚ) / (labels.length : ℚ) * 100
        top_categories := mostCommon 5 categories
        top_keywords := mostCommon 10 filtered_words
        sample_titles := titles.take 5 }

/-- Models `TopicClustering.analyze_clusters`: cluster, profile each non-empty
cluster id in `range(n_clusters)`, and sort the profiles by size
descending. -/
def analyze_clusters (fit : List (List ℚ) → Nat → List Nat)
    (pca : List (List ℚ) → List (List ℚ)) (embeddings : List (List ℚ))
    (metadata : List ClusterMeta) (n_clusters : Nat) : List ClusterStats :=
  List.insertionSort (keyGE ClusterStats.size)
    ((List.range n_clusters).filterMap
      (analyze_one metadata (perform_clustering fit pca embeddings n_clusters)))

/-! ### Concrete external-collaborator instantiations used by witnesses -/

/-- A clustering function giving every sample point its own label. -/
def fitRange (sample : List (List ℚ)) (_ : Nat) : List Nat :=
  List.range sample.length

/-- A clustering function putting every sample point in cluster 0. -/
def fitZero (sample : List (List ℚ)) (_ : Nat) : List Nat :=
  sample.map (fun _ => 0)

/-- A clustering function with the constant label list `[0, 1]`. -/
def fitTwo (_ : List (List ℚ)) (_ : Nat) : List Nat := [0, 1]

/-- A score function reading the first coordinate of the first sample row. -/
def silHead (sample : List (List ℚ)) (_ : List Nat) : ℚ :=
  (sample.headD []).headD 0

/-- An identity dimensionality reduction. -/
def pcaId (embeddings : List (List ℚ)) : List (List ℚ) := embeddings

/-! ### Supporting lemmas for the similarity engine -/

theorem listAll_iff_forall {P : α → Prop} :
    ∀ {l : List α}, ListAll P l ↔ ∀ a ∈ l, P a
  | [] => by simp [ListAll]
  | a :: l => by simp [ListAll, listAll_iff_forall (l := l)]

theorem enumFromN_map_snd : ∀ (n : Nat) (l : List α),
    (enumFromN n l).map Prod.snd = l
  | _, [] => rfl
  | n, a :: l => by simp [enumFromN, enumFromN_map_snd (n + 1) l]

theorem enumFromN_map_fst : ∀ (n : Nat) (l : List α),
    (enumFromN n l).map Prod.fst = List.range' n l.length
  | _, [] => rfl
  | n, a :: l => by
    simp [enumFromN, enumFromN_map_fst (n + 1) l, List.range'_succ]

theorem enumFromN_length : ∀ (n : Nat) (l : List α),
    (enumFromN n l).length = l.length
  | _, [] => rfl
  | n, _ :: l => by simp [enumFromN, enumFromN_length (n + 1) l]

theorem norm_nonneg' (v : List ℝ) : 0 ≤ norm v := Real.sqrt_nonneg _

theorem norm_eq_zero_of_not_pos {v : List ℝ} (h : ¬ 0 < norm v) : norm v = 0 :=
  le_antisymm (not_lt.mp h) (norm_nonneg' v)

theorem dot_comm : ∀ a b : List ℝ, dot a b = dot b a
  | [], [] => rfl
  | [], _ :: _ => rfl
  | _ :: _, [] => rfl
  | x :: a, y :: b => by
    simp only [dot, List.zipWith_cons_cons, List.sum_cons]
    rw [mul_comm x y]
    have := dot_comm a b
    simp only [dot] at this
    rw [this]

theorem clip_eq_clamp (x : ℝ) : min 1 (max (-1) x) = max (-1) (min 1 x) := by
  rw [max_min_distrib_left, max_eq_right (by norm_num : (-1 : ℝ) ≤ 1)]

theorem batch_length (q : List ℝ) (docs : List (List ℝ)) :
    (calculate_batch_similarity q docs).length = docs.length := by
  rw [calculate_batch_similarity]
  split <;> simp

/-- C3 row equality on the main branch of the batch computation. -/
theorem batch_row_eq (q d : List ℝ) (hq : norm q ≠ 0) :
    min 1 (max (-1)
      (if 0 < norm d then dot d q / (norm d * norm q) else 0)) =
    calculate_cosine_similarity q d := by
  rw [calculate_cosine_similarity]
  by_cases hd : 0 < norm d
  · rw [if_pos hd, if_neg (by push_neg; exact ⟨hq, ne_of_gt hd⟩)]
    rw [clip_eq_clamp, dot_comm d q, mul_comm (norm d) (norm q)]
  · rw [if_neg hd, if_pos (Or.inr (norm_eq_zero_of_not_pos hd))]
    norm_num

/-- C3: for every query vector and corpus, the batch similarity vector equals
the per-row cosine similarity: `batchSimilarity(query, corpus)[i] =
cosineSimilarity(query, corpus[i])` for every row `i`; rows with zero norm
receive `0.0` and all other rows are clamped to `[-1.0, 1.0]` identically in
both computations. -/
theorem batch_similarity_eq_map_cosine (q : List ℝ) (docs : List (List ℝ)) :
    calculate_batch_similarity q docs =
      docs.map (calculate_cosine_similarity q) := by
  rw [calculate_batch_similarity]
  split
  case isTrue h =>
    symm
    rw [List.eq_replicate_iff]
    refine ⟨by simp, ?_⟩
    intro b hb
    rcases List.mem_map.mp hb with ⟨d, hd, rfl⟩
    rcases h with hq | hvalid
    · rw [calculate_cosine_similarity, if_pos (Or.inl hq)]
    · rw [calculate_cosine_similarity, if_pos (Or.inr (norm_eq_zero_of_not_pos
        (fun hpos => hvalid ⟨d, hd, hpos⟩)))]
  case isFalse h =>
    push_neg at h
    rw [List.map_map]
    refine List.map_congr_left ?_
    intro d _
    exact batch_row_eq q d h.1

/-- C7: for every pair of vectors, `calculate_cosine_similarity` equals the
spec formula — `dot(a,b)/(‖a‖·‖b‖)` clamped to `[-1.0, 1.0]`, and `0.0`
whenever either norm is zero (no division by zero occurs) — and its value
always lies in `[-1, 1]`. -/
theorem cosine_similarity_matches_spec (a b : List ℝ) :
    calculate_cosine_similarity a b = cosineSimilaritySpec a b ∧
    -1 ≤ calculate_cosine_similarity a b ∧
    calculate_cosine_similarity a b ≤ 1 := by
  refine ⟨?_, ?_, ?_⟩
  · rw [calculate_cosine_similarity, cosineSimilaritySpec, clampSpec]
    split
    · rfl
    · rw [clip_eq_clamp]
  · rw [calculate_cosine_similarity]
    split
    · norm_num
    · exact le_max_left _ _
  · rw [calculate_cosine_similarity]
    split
    · norm_num
    · exact max_le (by norm_num) (min_le_left _ _)

/-- C4: for every query, corpus of `N` rows and every `k`,
`find_top_k_similar` returns exactly `min N k` indices, its scores are in
non-increasing (descending) order, and when `N ≤ k` the returned indices are
exactly all `N` row indices. -/
theorem find_top_k_spec (q : List ℝ) (docs : List (List ℝ)) (k : Nat) :
    (find_top_k_similar q docs k).1.length = min docs.length k ∧
    List.Sorted (fun a b => b ≤ a) (find_top_k_similar q docs k).2 ∧
    (docs.length ≤ k →
      (find_top_k_similar q docs k).1.Perm (List.range docs.length)) := by
  have hlen := batch_length q docs
  simp only [find_top_k_similar]
  set sims := calculate_batch_similarity q docs with hsims
  set order := List.insertionSort (keyGE Prod.snd) (enumFromN 0 sims)
    with horder
  have hperm : order.Perm (enumFromN 0 sims) := List.perm_insertionSort _ _
  have hOlen : order.length = docs.length := by
    rw [hperm.length_eq, enumFromN_length, hlen]
  have hsorted : List.Sorted (keyGE Prod.snd) order :=
    List.sorted_insertionSort _ _
  split
  case isTrue hk =>
    rw [hlen] at hk
    refine ⟨?_, ?_, ?_⟩
    · simp [hOlen, min_eq_left hk]
    · exact hsorted.map _ (fun a b h => h)
    · intro _
      have : (order.map Prod.fst).Perm ((enumFromN 0 sims).map Prod.fst) :=
        hperm.map _
      rw [enumFromN_map_fst, ← List.range_eq_range', hlen] at this
      exact this
  case isFalse hk =>
    rw [hlen] at hk
    refine ⟨?_, ?_, ?_⟩
    · simp [List.length_take, hOlen, min_comm]
    · exact (List.Pairwise.sublist (List.take_sublist k order) hsorted).map _
        (fun a b h => h)
    · intro h
      exact absurd h hk

/-! ### Supporting lemmas for the search orchestrator -/

theorem pairwise_filterMap_of (f : α → Option β) {R : α → α → Prop}
    {S : β → β → Prop}
    (hf : ∀ a b x y, R a b → f a = some x → f b = some y → S x y) :
    ∀ l : List α, l.Pairwise R → (l.filterMap f).Pairwise S
  | [], _ => by simp
  | a :: l, h => by
    rcases List.pairwise_cons.mp h with ⟨ha, hl⟩
    rw [List.filterMap_cons]
    cases hfa : f a with
    | none => exact pairwise_filterMap_of f hf l hl
    | some x =>
      refine List.pairwise_cons.mpr
        ⟨?_, pairwise_filterMap_of f hf l hl⟩
      intro y hy
      rcases List.mem_filterMap.mp hy with ⟨b, hb, hfb⟩
      exact hf a b x y (ha b hb) hfa hfb

theorem zip_map_fst_snd : ∀ l : List (α × β),
    (l.map Prod.fst).zip (l.map Prod.snd) = l
  | [] => rfl
  | _ :: l => by simp [zip_map_fst_snd l]

/-- The `(index, score)` pairs coming out of `find_top_k_similar` are in
descending score order. -/
theorem find_top_k_zip_pairwise (q : List ℝ) (docs : List (List ℝ)) (k : Nat) :
    ((find_top_k_similar q docs k).1.zip
      (find_top_k_similar q docs k).2).Pairwise (keyGE Prod.snd) := by
  simp only [find_top_k_similar]
  split
  · rw [zip_map_fst_snd]
    exact List.sorted_insertionSort _ _
  · rw [zip_map_fst_snd]
    exact List.Pairwise.sublist (List.take_sublist _ _)
      (List.sorted_insertionSort _ _)

/-- The filtered result list is already in descending score order. -/
theorem filter_results_pairwise (metadata : List MetaRecord) (query : String)
    (threshold : ℝ) (pairs : List (Nat × ℝ))
    (hp : pairs.Pairwise (keyGE Prod.snd)) :
    (filter_results metadata query threshold pairs).Pairwise
      (keyGE SearchHit.similarity_score) := by
  refine pairwise_filterMap_of _ ?_ pairs hp
  intro a b x y hab hfa hfb
  split at hfa
  · split at hfb
    · cases hfa
      cases hfb
      exact hab
    · cases hfb
  · cases hfa

theorem mem_filter_results {metadata : List MetaRecord} {query : String}
    {threshold : ℝ} {pairs : List (Nat × ℝ)} {h : SearchHit}
    (hm : h ∈ filter_results metadata query threshold pairs) :
    threshold ≤ h.similarity_score := by
  rcases List.mem_filterMap.mp hm with ⟨p, _, hfp⟩
  split at hfp
  case isTrue ht =>
    cases hfp
    exact ht
  case isFalse => cases hfp

/-! ### Claim theorems for the search orchestrator -/

/-- C5: every non-sentinel (result-dict) record returned by `search` has
similarity score at least `threshold`, and the scores of the returned
records are in descending order. -/
theorem search_threshold_and_sorted (query : String) (qe : List ℝ)
    (embeddings : List (List ℝ)) (metadata : List MetaRecord) (k : Nat)
    (threshold : ℝ) :
    ListAll (recScoreOK threshold)
      (search query qe embeddings metadata k threshold) ∧
    List.Sorted (fun a b => b ≤ a)
      ((search query qe embeddings metadata k threshold).filterMap
        recScore) := by
  simp only [search]
  split
  case isTrue h =>
    cases htop : (find_top_k_similar qe embeddings k).2 with
    | nil => exact ⟨⟨trivial, trivial⟩, by simp [recScore]⟩
    | cons s t => exact ⟨⟨trivial, trivial⟩, by simp [recScore]⟩
  case isFalse h =>
    constructor
    · rw [listAll_iff_forall]
      intro r hr
      rcases List.mem_map.mp hr with ⟨hh, hmem, rfl⟩
      have hres : hh ∈ filter_results metadata query threshold
          ((find_top_k_similar qe embeddings k).1.zip
            (find_top_k_similar qe embeddings k).2) :=
        (List.mem_insertionSort _).mp hmem
      exact mem_filter_results hres
    · have heq : ∀ l : List SearchHit,
          (l.map SearchRecord.hit).filterMap recScore =
          l.map SearchHit.similarity_score := by
        intro l
        induction l with
        | nil => rfl
        | cons a l ih => simp [recScore, ih]
      rw [heq]
      exact (List.sorted_insertionSort
        (keyGE SearchHit.similarity_score) _).map _ (fun a b hab => hab)

/-- C1 (evaluation at the failing input): on the empty corpus with no
surviving result, `search` does not return the sentinel — the unguarded
`scores[0]` in the logging f-string raises `IndexError` and the catch-all
returns the query/error dict, for every query, `k` and
threshold. -/
theorem search_empty_corpus_returns_error (query : String) (qe : List ℝ)
    (k : Nat) (threshold : ℝ) :
    search query qe [] [] k threshold =
      [SearchRecord.failure query
        "index 0 is out of bounds for axis 0 with size 0"] := by
  have hb : calculate_batch_similarity qe [] = [] := by
    rw [calculate_batch_similarity]
    split <;> simp
  simp [search, find_top_k_similar, hb, enumFromN, filter_results]

/-- C6: `search_by_embedding` returns the plain empty list (no sentinel
record) whenever no top-k score reaches the threshold, and otherwise its
output is exactly the result-dict part of the output of `search` on the same
vector (the same select-then-filter contract, with query text
`"Embedding query"`). -/
theorem search_by_embedding_contract (qe : List ℝ)
    (embeddings : List (List ℝ)) (metadata : List MetaRecord) (k : Nat)
    (threshold : ℝ) :
    ((∀ s ∈ (find_top_k_similar qe embeddings k).2, s < threshold) →
      search_by_embedding qe embeddings metadata k threshold = []) ∧
    search_by_embedding qe embeddings metadata k threshold =
      (search "Embedding query" qe embeddings metadata k threshold).filter
        isHit := by
  constructor
  · intro hbelow
    simp only [search_by_embedding]
    rw [List.map_eq_nil_iff]
    rw [filter_results, List.filterMap_eq_nil_iff]
    rintro ⟨i, s⟩ hp
    rw [if_neg]
    exact not_le.mpr (hbelow s (List.of_mem_zip hp).2)
  · have hpw : (filter_results metadata "Embedding query" threshold
        ((find_top_k_similar qe embeddings k).1.zip
          (find_top_k_similar qe embeddings k).2)).Pairwise
        (keyGE SearchHit.similarity_score) :=
      filter_results_pairwise _ _ _ _ (find_top_k_zip_pairwise qe embeddings k)
    simp only [search_by_embedding, search]
    rw [List.Sorted.insertionSort_eq hpw]
    set res := filter_results metadata "Embedding query" threshold
      ((find_top_k_similar qe embeddings k).1.zip
        (find_top_k_similar qe embeddings k).2) with hres
    split
    case isTrue hempty =>
      rw [List.isEmpty_iff] at hempty
      rw [hempty]
      cases (find_top_k_similar qe embeddings k).2 <;> simp [isHit]
    case isFalse =>
      rw [List.filter_map]
      have : (isHit ∘ SearchRecord.hit) = fun _ => true := rfl
      rw [this, List.filter_true]

/-- C9: `get_document_by_index` returns `None` (never raises) for negative
or out-of-range indices; for an in-range index covered by the metadata list
it returns the metadata record; for an in-range index beyond the metadata
(missing or shorter metadata) it returns the embedding-derived stub, not an
error. -/
theorem get_document_spec (embeddings : List (List ℝ))
    (metadata : List MetaRecord) (idx : Int) :
    ((idx < 0 ∨ (embeddings.length : Int) ≤ idx) →
      get_document_by_index embeddings metadata idx = none) ∧
    (0 ≤ idx → idx < (embeddings.length : Int) →
      idx < (metadata.length : Int) →
      get_document_by_index embeddings metadata idx =
        some (Document.fromMeta (metadata.getD idx.toNat default))) ∧
    (0 ≤ idx → idx < (embeddings.length : Int) →
      (metadata.length : Int) ≤ idx →
      get_document_by_index embeddings metadata idx =
        some (Document.stub ⟨idx, (embeddings.getD idx.toNat []).length⟩)) := by
  refine ⟨?_, ?_, ?_⟩
  · intro h
    rw [get_document_by_index, if_pos h]
  · intro h0 _ hmeta
    rw [get_document_by_index, if_neg (by omega), if_pos (by omega)]
  · intro h0 hlt hmeta
    rw [get_document_by_index, if_neg (by omega), if_neg (by omega)]

/-! ### Witnesses -/

theorem find_top_k_witness :
    ([[0], [0]] : List (List ℝ)).length ≤ 3 ∧
    (find_top_k_similar [0] [[0], [0]] 3).1.Perm
      (List.range ([[0], [0]] : List (List ℝ)).length) :=
  ⟨by simp, (find_top_k_spec [0] [[0], [0]] 3).2.2 (by simp)⟩

theorem search_by_embedding_witness :
    search_by_embedding [0] [] [] 5 (1 / 2) = [] := by
  refine (search_by_embedding_contract [0] [] [] 5 (1 / 2)).1 ?_
  intro s hs
  have hb : calculate_batch_similarity [0] [] = [] := by
    rw [calculate_batch_similarity]
    split <;> simp
  simp [find_top_k_similar, hb, enumFromN] at hs

theorem get_document_witness :
    (0 : Int) ≤ 2 ∧ (2 : Int) < (([[0], [0], [0]] : List (List ℝ)).length : Int) ∧
    ((([default] : List MetaRecord).length : Int) ≤ 2 ∧
      get_document_by_index [[0], [0], [0]] [default] 2 =
        some (Document.stub ⟨2, 1⟩)) := by
  refine ⟨by norm_num, by norm_num, by norm_num, ?_⟩
  have h := (get_document_spec [[0], [0], [0]] [default] 2).2.2
    (by norm_num) (by norm_num) (by norm_num)
  rw [h]
  rfl

/-! ### Supporting lemmas for the cluster analyzer -/

theorem sum_map_add (l : List α) (f g : α → Nat) :
    (l.map (fun x => f x + g x)).sum = (l.map f).sum + (l.map g).sum := by
  induction l with
  | nil => rfl
  | cons a l ih =>
    simp only [List.map_cons, List.sum_cons, ih]
    omega

theorem sum_ite_range (a : Nat) : ∀ k : Nat,
    ((List.range k).map (fun c => if a = c then 1 else 0)).sum =
      if a < k then 1 else 0
  | 0 => by simp
  | k + 1 => by
    rw [List.range_succ, List.map_append, List.sum_append, sum_ite_range a k]
    by_cases h : a < k
    · have hne : a ≠ k := Nat.ne_of_lt h
      simp [h, hne, Nat.lt_succ_of_lt h]
    · by_cases he : a = k
      · simp [h, he]
      · have hns : ¬ a < k + 1 := by omega
        simp [h, he, hns]

theorem sum_filter_lengths {k : Nat} :
    ∀ l : List (Nat × Nat), (∀ p ∈ l, p.2 < k) →
      ((List.range k).map
        (fun c => (l.filter (fun p => p.2 == c)).length)).sum = l.length
  | [], _ => by simp
  | p :: l, h => by
    have hp : p.2 < k := h p (List.mem_cons_self p l)
    have hl : ∀ q ∈ l, q.2 < k := fun q hq => h q (List.mem_cons_of_mem p hq)
    have hstep : ∀ c ∈ List.range k,
        ((p :: l).filter (fun q => q.2 == c)).length =
          (l.filter (fun q => q.2 == c)).length + if p.2 = c then 1 else 0 := by
      intro c _
      rw [List.filter_cons]
      by_cases hc : p.2 = c
      · simp [hc]
      · simp [hc]
    rw [List.map_congr_left hstep, sum_map_add, sum_filter_lengths l hl,
      sum_ite_range p.2 k, if_pos hp]
    simp

theorem mem_enumFromN_snd :
    ∀ (n : Nat) (l : List α) (p : Nat × α), p ∈ enumFromN n l → p.2 ∈ l
  | n, a :: l, p, hp => by
    rcases List.mem_cons.mp hp with rfl | hp'
    · exact List.mem_cons_self _ _
    · exact List.mem_cons_of_mem _ (mem_enumFromN_snd (n + 1) l p hp')

theorem sum_map_filterMap (f : α → Option β) (g : β → Nat) :
    ∀ l : List α, ((l.filterMap f).map g).sum =
      (l.map (fun a => ((f a).map g).getD 0)).sum
  | [] => rfl
  | a :: l => by
    rw [List.filterMap_cons]
    cases hfa : f a with
    | none => simp [hfa, sum_map_filterMap f g l]
    | some b => simp [hfa, sum_map_filterMap f g l]

theorem analyze_one_size (metadata : List ClusterMeta) (labels : List Nat)
    (c : Nat) :
    ((analyze_one metadata labels c).map ClusterStats.size).getD 0 =
      (clusterIndices labels c).length := by
  rw [analyze_one]
  by_cases h : (clusterIndices labels c).isEmpty
  · rw [if_pos h]
    rw [List.isEmpty_iff] at h
    simp [h]
  · rw [if_neg h]
    rfl

theorem filterMap_length_lt (f : α → Option β) :
    ∀ l : List α, (∃ x ∈ l, f x = none) → (l.filterMap f).length < l.length
  | a :: l, ⟨x, hx, hfx⟩ => by
    rw [List.filterMap_cons]
    rcases List.mem_cons.mp hx with rfl | hx'
    · rw [hfx]
      exact Nat.lt_succ_of_le (List.length_filterMap_le f l)
    · cases hfa : f a with
      | none =>
        exact Nat.lt_succ_of_le
          (Nat.le_of_lt (filterMap_length_lt f l ⟨x, hx', hfx⟩))
      | some b =>
        simpa using Nat.succ_lt_succ (filterMap_length_lt f l ⟨x, hx', hfx⟩)

/-! ### Claim theorems for the cluster analyzer -/

/-- C2 counterexample: `find_optimal_clusters` draws its sample from the
ambient (unseeded) generator, so two successive runs draw different samples
and return different silhouette maps.  At the corpus `[[0], [1]]` with
`max_clusters = 2`, ambient stream `[1]`, and deterministic stand-ins for
the (seeded, hence deterministic) k-means and silhouette collaborators: the
first run draws sample indices `[1, 0]`, leaves the generator state `[]`,
and returns the map `{2: 1}`; the second run, started from that state,
draws `[0, 1]` and returns `{2: 0}` — neither the samples nor the maps
coincide, contradicting the claimed determinism. -/
theorem find_optimal_two_runs_differ :
    (sampleIndices 2 [1]).1 = [1, 0] ∧
    (find_optimal_clusters fitRange silHead [[0], [1]] 2 [1]).2 = [] ∧
    (find_optimal_clusters fitRange silHead [[0], [1]] 2 [1]).1 =
      [(2, 1)] ∧
    (sampleIndices 2 []).1 = [0, 1] ∧
    (find_optimal_clusters fitRange silHead [[0], [1]] 2 []).1 =
      [(2, 0)] := by
  decide

/-- C2 amended: the silhouette map returned by `find_optimal_clusters`
depends on the ambient generator state only through the drawn sample — two
runs whose states draw the same sample indices return the identical map
(and clustering itself, its seed fixed, is a deterministic function of the
corpus and `k`). -/
theorem find_optimal_sample_determines
    (fit : List (List ℚ) → Nat → List Nat)
    (sil : List (List ℚ) → List Nat → ℚ) (embeddings : List (List ℚ))
    (max_clusters : Nat) (rng1 rng2 : List Nat)
    (h : (sampleIndices embeddings.length rng1).1 =
      (sampleIndices embeddings.length rng2).1) :
    (find_optimal_clusters fit sil embeddings max_clusters rng1).1 =
      (find_optimal_clusters fit sil embeddings max_clusters rng2).1 := by
  simp only [find_optimal_clusters]
  rw [h]

theorem find_optimal_sample_determines_witness :
    (sampleIndices ([[0]] : List (List ℚ)).length [5]).1 =
      (sampleIndices ([[0]] : List (List ℚ)).length [7]).1 ∧
    (find_optimal_clusters fitRange silHead [[0]] 2 [5]).1 =
      (find_optimal_clusters fitRange silHead [[0]] 2 [7]).1 :=
  ⟨by decide,
    find_optimal_sample_determines fitRange silHead [[0]] 2 [5] [7]
      (by decide)⟩

/-- C8: whenever the clustering collaborator returns one label per document
with labels in `[0, n_clusters)` (the sklearn `fit_predict` contract), the
cluster profiles returned by `analyze_clusters` have member counts summing
exactly to the corpus size, and the profile list is sorted by descending
cluster size. -/
theorem analyze_clusters_sizes_and_sorted
    (fit : List (List ℚ) → Nat → List Nat)
    (pca : List (List ℚ) → List (List ℚ)) (embeddings : List (List ℚ))
    (metadata : List ClusterMeta) (n_clusters : Nat)
    (hlen : (perform_clustering fit pca embeddings n_clusters).length =
      embeddings.length)
    (hbound : ∀ l ∈ perform_clustering fit pca embeddings n_clusters,
      l < n_clusters) :
    ((analyze_clusters fit pca embeddings metadata n_clusters).map
      ClusterStats.size).sum = embeddings.length ∧
    List.Sorted (fun a b => b.size ≤ a.size)
      (analyze_clusters fit pca embeddings metadata n_clusters) := by
  constructor
  · have hperm :
        (analyze_clusters fit pca embeddings metadata n_clusters).Perm
          ((List.range n_clusters).filterMap
            (analyze_one metadata
              (perform_clustering fit pca embeddings n_clusters))) := by
      simp only [analyze_clusters]
      exact List.perm_insertionSort _ _
    rw [(hperm.map ClusterStats.size).sum_eq, sum_map_filterMap,
      List.map_congr_left (fun c _ => analyze_one_size metadata _ c)]
    have hlength : ∀ c ∈ List.range n_clusters,
        (clusterIndices (perform_clustering fit pca embeddings n_clusters)
          c).length =
        (((enumFromN 0 (perform_clustering fit pca embeddings n_clusters)
          )).filter (fun p => p.2 == c)).length := by
      intro c _
      rw [clusterIndices, List.length_map]
    rw [List.map_congr_left hlength,
      sum_filter_lengths (enumFromN 0 _)
        (fun p hp => hbound p.2 (mem_enumFromN_snd 0 _ p hp)),
      enumFromN_length, hlen]
  · simp only [analyze_clusters]
    exact List.sorted_insertionSort (keyGE ClusterStats.size) _

theorem analyze_clusters_sizes_witness :
    (perform_clustering fitTwo pcaId [[0], [1]] 2).length =
      ([[0], [1]] : List (List ℚ)).length ∧
    (∀ l ∈ perform_clustering fitTwo pcaId [[0], [1]] 2, l < 2) ∧
    ((analyze_clusters fitTwo pcaId [[0], [1]] [] 2).map
      ClusterStats.size).sum = ([[0], [1]] : List (List ℚ)).length :=
  ⟨by decide, by decide,
    (analyze_clusters_sizes_and_sorted fitTwo pcaId [[0], [1]] [] 2
      (by decide) (by decide)).1⟩

/-- C10: `analyze_clusters` emits a profile only for clusters with at least
one member (every returned profile has size ≥ 1), and when some cluster id
below `n_clusters` receives no documents the returned list has strictly
fewer than `n_clusters` profiles — empty clusters are silently omitted,
never reported with size 0. -/
theorem analyze_clusters_skips_empty
    (fit : List (List ℚ) → Nat → List Nat)
    (pca : List (List ℚ) → List (List ℚ)) (embeddings : List (List ℚ))
    (metadata : List ClusterMeta) (n_clusters : Nat) :
    ListAll (fun s => 1 ≤ s.size)
      (analyze_clusters fit pca embeddings metadata n_clusters) ∧
    ((∃ c < n_clusters,
        clusterIndices (perform_clustering fit pca embeddings n_clusters)
          c = []) →
      (analyze_clusters fit pca embeddings metadata n_clusters).length <
        n_clusters) := by
  constructor
  · rw [listAll_iff_forall]
    intro s hs
    simp only [analyze_clusters] at hs
    rcases List.mem_filterMap.mp ((List.mem_insertionSort _).mp hs) with
      ⟨c, _, hc⟩
    rw [analyze_one] at hc
    split at hc
    case isTrue => cases hc
    case isFalse hne =>
      cases hc
      have : clusterIndices
          (perform_clustering fit pca embeddings n_clusters) c ≠ [] := by
        intro hnil
        rw [hnil] at hne
        exact hne rfl
      exact List.length_pos.mpr this
  · rintro ⟨c, hck, hcempty⟩
    have hnone : analyze_one metadata
        (perform_clustering fit pca embeddings n_clusters) c = none := by
      rw [analyze_one, if_pos]
      rw [hcempty]
      rfl
    have hlt := filterMap_length_lt
      (analyze_one metadata (perform_clustering fit pca embeddings n_clusters))
      (List.range n_clusters) ⟨c, List.mem_range.mpr hck, hnone⟩
    simp only [analyze_clusters]
    rw [(List.perm_insertionSort _ _).length_eq]
    rwa [List.length_range] at hlt

theorem analyze_clusters_skips_empty_witness :
    clusterIndices (perform_clustering fitZero pcaId [[0], [1]] 2) 1 = [] ∧
    (analyze_clusters fitZero pcaId [[0], [1]] [] 2).length < 2 :=
  ⟨by decide,
    (analyze_clusters_skips_empty fitZero pcaId [[0], [1]] [] 2).2
      ⟨1, by decide, by decide⟩⟩

end SemanticSearch
